import Mathlib

/-!
# CircularPiCam / SimpleCapture: RAW10 unpacking and the capture loop

A shallow embedding of `src/SimpleCapture/main.cpp`:

* the unpack loop of `save_raw10_to_tiff` (lines 57-88), with every access to the
  source buffer and to the `unpacked` vector checked against its bounds and
  recorded, so that memory safety and the write pattern can be stated;
* the completion queue shared by `RequestHandler::handleRequest` (lines 118-126)
  and the `while` loop of `main` (lines 223-235), as a sequential step function.

`int` values are natural numbers: every statement below is about non-negative
`width` and `height` whose products stay below `2^31`, where C++ `int` arithmetic
agrees with arithmetic on `Nat`.
-/

namespace SimpleCapture

/-! ## Data model -/

/-- The C++ type `uint8_t`. -/
abbrev Byte := Fin 256

/-- Undefined behaviour the unpack loop can run into, and the one artefact of the
embedding (`loopFuel`, which the theorems show is never produced). -/
inductive Fault where
  | srcOutOfBounds (i : Nat)
  | dstOutOfBounds (i : Nat)
  | loopFuel
  deriving DecidableEq

/-- State of the unpack loop: the vector `unpacked`, and two ghost logs, the
source indices read so far and the (index, computed `int` value) pairs written
so far, both in program order. -/
structure Unpack where
  unpacked : List Nat
  reads : List Nat
  writes : List (Nat × Nat)
  deriving DecidableEq

/-- Evaluation of `data[i]` on a buffer of `data.length` bytes; the byte is
promoted to `int`. -/
def load (data : List Byte) (i : Nat) (st : Unpack) : Except Fault (Nat × Unpack) :=
  match data[i]? with
  | some b => .ok (b.val, { st with reads := st.reads ++ [i] })
  | none => .error (.srcOutOfBounds i)

/-- Assignment `unpacked[i] = v`: the `int` value `v` is converted to
`uint16_t`, that is reduced modulo `2^16`. -/
def store (i v : Nat) (st : Unpack) : Except Fault Unpack :=
  if i < st.unpacked.length then
    .ok { st with unpacked := st.unpacked.set i (v % 65536), writes := st.writes ++ [(i, v)] }
  else .error (.dstOutOfBounds i)

/-- A counted loop `for (int i = lo; i < lo + count; ++i) body`. -/
def forLoop {σ : Type} (body : Nat → σ → Except Fault σ) : Nat → Nat → σ → Except Fault σ
  | _, 0, s => .ok s
  | i, count + 1, s =>
    match body i s with
    | .ok s' => forLoop body (i + 1) count s'
    | .error e => .error e

/-! ## `save_raw10_to_tiff` -/

/-- Line 60: `int packed_stride = ((width * 10 + 7) / 8);`. -/
def packed_stride (width : Nat) : Nat := (width * 10 + 7) / 8

/-- Body of the loop over complete groups, lines 68-76: `src` and `dst` are the
offsets of the two pointers into `data` and `unpacked`. -/
def unpackGroup (data : List Byte) (src dst : Nat) (st : Unpack) : Except Fault Unpack := do
  let (b0, st) ← load data src st
  let (b1, st) ← load data (src + 1) st
  let (b2, st) ← load data (src + 2) st
  let (b3, st) ← load data (src + 3) st
  let (b4, st) ← load data (src + 4) st
  let st ← store dst ((b0 <<< 2) ||| ((b4 >>> 0) &&& 0x3)) st
  let st ← store (dst + 1) ((b1 <<< 2) ||| ((b4 >>> 2) &&& 0x3)) st
  let st ← store (dst + 2) ((b2 <<< 2) ||| ((b4 >>> 4) &&& 0x3)) st
  store (dst + 3) ((b3 <<< 2) ||| ((b4 >>> 6) &&& 0x3)) st

/-- The loop `for (; col + 3 < width; col += 4) { ...; src += 5; }` of lines
67-78, from a given `col` and `src`. The pointer `dst` is not advanced by the
source, so it is a parameter here. Returns the final `col` and `src`. -/
def fullGroups (data : List Byte) (width dst : Nat) :
    Nat → Nat → Nat → Unpack → Except Fault (Nat × Nat × Unpack)
  | 0, col, src, st => if col + 3 < width then .error .loopFuel else .ok (col, src, st)
  | fuel + 1, col, src, st =>
    if col + 3 < width then
      match unpackGroup data src dst st with
      | .ok st' => fullGroups data width dst fuel (col + 4) (src + 5) st'
      | .error e => .error e
    else .ok (col, src, st)

/-- Bound of the copy loop of line 83:
`(rem == 1 ? 2 : rem == 2 ? 3 : rem == 3 ? 4 : 5)`. -/
def tailBytes (rem : Nat) : Nat :=
  if rem = 1 then 2 else if rem = 2 then 3 else if rem = 3 then 4 else 5

/-- Body of the copy loop, line 84: `b[i] = src[i];`. The state carries the
scratch array `b`. -/
def copyByte (data : List Byte) (src : Nat) (i : Nat) (s : List Nat × Unpack) :
    Except Fault (List Nat × Unpack) := do
  let (v, st) ← load data (src + i) s.2
  pure (s.1.set i v, st)

/-- Body of the emit loop, line 86:
`dst[i] = ((b[i] << 2) | ((b[4] >> (2 * i)) & 0x3));`. -/
def emitSample (b : List Nat) (dst : Nat) (i : Nat) (st : Unpack) : Except Fault Unpack :=
  store (dst + i) ((b.getD i 0 <<< 2) ||| ((b.getD 4 0 >>> (2 * i)) &&& 0x3)) st

/-- Lines 80-87: the remaining pixels of a row. -/
def unpackTail (data : List Byte) (width col src dst : Nat) (st : Unpack) :
    Except Fault Unpack :=
  let rem := width - col
  if rem > 0 then do
    let (b, st) ← forLoop (copyByte data src) 0 (tailBytes rem) ([0, 0, 0, 0, 0], st)
    forLoop (emitSample b dst) 0 rem st
  else .ok st

/-- Body of the loop over rows, lines 64-87. -/
def unpackRow (data : List Byte) (width : Nat) (row : Nat) (st : Unpack) :
    Except Fault Unpack := do
  let src := row * packed_stride width
  let dst := row * width
  let (col, src, st) ← fullGroups data width dst width 0 src st
  unpackTail data width col src dst st

/-- Lines 60-88: the vector `unpacked(width * height)` is value-initialised to
zeros and the rows are unpacked in order. -/
def unpack (data : List Byte) (width height : Nat) : Except Fault Unpack :=
  forLoop (unpackRow data width) 0 height
    { unpacked := List.replicate (width * height) 0, reads := [], writes := [] }

/-- How the state `st'` comes from `st`: the vector keeps its length, exactly the
source indices `rs` were read, every write went to an index of `[lo, hi)` with a
computed value of at most 1023, and samples stay at most 1023. -/
structure Advance (lo hi : Nat) (rs : List Nat) (st st' : Unpack) : Prop where
  len : st'.unpacked.length = st.unpacked.length
  reads : st'.reads = st.reads ++ rs
  writes : ∃ ws, st'.writes = st.writes ++ ws ∧ ∀ w ∈ ws, lo ≤ w.1 ∧ w.1 < hi ∧ w.2 ≤ 1023
  range : (∀ x ∈ st.unpacked, x ≤ 1023) → ∀ x ∈ st'.unpacked, x ≤ 1023

/-! ## Packing, written after the specification

The source has no packing function: the camera fills the buffers. These
definitions follow the words of the round-trip property and serve only to state
it. -/

/-- The low-bits byte of a group: `v_i & 3` in bits `2i .. 2i+1`, for the pixels
of the group from position `i` on. -/
def specPackLowBits : List Nat → Nat → Nat
  | [], _ => 0
  | v :: vs, i => ((v &&& 3) <<< (2 * i)) ||| specPackLowBits vs (i + 1)

/-- A group of up to 4 pixels: one byte `v_i >> 2` per pixel, then the low-bits
byte. -/
def specPackGroup (vs : List Nat) : List Byte :=
  vs.map (fun v => Fin.ofNat (v >>> 2)) ++ [Fin.ofNat (specPackLowBits vs 0)]

/-- A row, in groups of 4 consecutive pixels and a last group of the pixels left. -/
def specPackRow : List Nat → List Byte
  | v0 :: v1 :: v2 :: v3 :: rest => specPackGroup [v0, v1, v2, v3] ++ specPackRow rest
  | [] => []
  | vs => specPackGroup vs

/-- A grid given by its rows, packed row by row. -/
def specPackGrid (rows : List (List Nat)) : List Byte :=
  (rows.map specPackRow).flatten

/-! ## The completion queue and the capture loop of `main` -/

/-- A `Request *`: requests are told apart by their address. -/
abbrev Request := Nat

/-- The variables of `main` that the capture loop and the handler touch, and a
ghost log `queued` of the arguments of `camera->queueRequest`, in call order. -/
structure Session where
  captured_frames : Int
  completed_queue : List Request
  queued : List Request
  deriving DecidableEq

/-- Lines 136-138 and 216-220: the counter is 0, the queue is empty and every
request of `requests` has been queued to the camera once. -/
def startSession (requests : List Request) : Session :=
  { captured_frames := 0, completed_queue := [], queued := requests }

/-- The method `RequestHandler::handleRequest`, lines 118-126: `queue.push(request)`
under the lock. -/
def handleRequest (request : Request) (s : Session) : Session :=
  { s with completed_queue := s.completed_queue ++ [request] }

/-- One evaluation of `while (captured_frames < MAX_FRAMES) { ... }`, lines
223-235. `none`: the condition is false and the loop is left. Otherwise the
state after the body, with the request taken by `front()` and `pop()` if the
queue was not empty. The body ends at the comment of line 234. -/
def captureLoopIter (MAX_FRAMES : Int) (s : Session) : Option (Session × Option Request) :=
  if s.captured_frames < MAX_FRAMES then
    match s.completed_queue with
    | [] => some (s, none)
    | req :: rest => some ({ s with completed_queue := rest }, some req)
  else none

/-- What happens next in a sequential run: the camera signals a completed
request, or the main thread evaluates the loop once more. -/
inductive Event where
  | completion (request : Request)
  | iteration
  deriving DecidableEq

/-- A run in progress: the session, whether control is still in the capture
loop, and the ghost logs of the requests signaled and dequeued so far. -/
structure Run where
  session : Session
  inLoop : Bool
  signaled : List Request
  dequeued : List Request
  deriving DecidableEq

/-- The effect of one event. After the loop is left, `main` runs the teardown of
lines 237-240 and evaluates the loop no more. -/
def Run.step (MAX_FRAMES : Int) (r : Run) : Event → Run
  | .completion request =>
    { r with session := handleRequest request r.session, signaled := r.signaled ++ [request] }
  | .iteration =>
    if r.inLoop then
      match captureLoopIter MAX_FRAMES r.session with
      | none => { r with inLoop := false }
      | some (s, none) => { r with session := s }
      | some (s, some req) => { r with session := s, dequeued := r.dequeued ++ [req] }
    else r

/-- The run of `main` from line 222 on under a schedule of events. -/
def runMain (MAX_FRAMES : Int) (requests : List Request) (events : List Event) : Run :=
  events.foldl (Run.step MAX_FRAMES)
    { session := startSession requests, inLoop := true, signaled := [], dequeued := [] }

/-- The requests a schedule passes to `handleRequest`, in order. -/
def completions : List Event → List Request
  | [] => []
  | .completion request :: es => request :: completions es
  | .iteration :: es => completions es

/-! ## Lemmas on the unpack loop -/

theorem Advance.trans {lo hi : Nat} {rs rs' : List Nat} {a b c : Unpack}
    (h1 : Advance lo hi rs a b) (h2 : Advance lo hi rs' b c) : Advance lo hi (rs ++ rs') a c := by
  obtain ⟨ws1, e1, p1⟩ := h1.writes
  obtain ⟨ws2, e2, p2⟩ := h2.writes
  refine ⟨h2.len.trans h1.len, ?_, ⟨ws1 ++ ws2, ?_, ?_⟩, fun h => h2.range (h1.range h)⟩
  · rw [h2.reads, h1.reads, List.append_assoc]
  · rw [e2, e1, List.append_assoc]
  · intro w hw
    rcases List.mem_append.mp hw with hw | hw
    · exact p1 w hw
    · exact p2 w hw

theorem step_queue_inv (M : Int) (r : Run) (e : Event)
    (h : r.signaled = r.dequeued ++ r.session.completed_queue) :
    (r.step M e).signaled = (r.step M e).dequeued ++ (r.step M e).session.completed_queue := by
  cases e with
  | completion request => simp [Run.step, handleRequest, h]
  | iteration =>
    unfold Run.step captureLoopIter
    cases hq : r.session.completed_queue with
    | nil => split_ifs <;> simp [h, hq]
    | cons req rest => split_ifs <;> simp [h, hq]

theorem foldl_queue_inv (M : Int) (events : List Event) (r : Run)
    (h : r.signaled = r.dequeued ++ r.session.completed_queue) :
    (events.foldl (Run.step M) r).signaled =
      (events.foldl (Run.step M) r).dequeued
        ++ (events.foldl (Run.step M) r).session.completed_queue := by
  induction events generalizing r with
  | nil => exact h
  | cons e es ih => exact ih _ (step_queue_inv M r e h)

theorem step_signaled (M : Int) (r : Run) (e : Event) :
    (r.step M e).signaled = r.signaled ++ completions [e] := by
  cases e with
  | completion request => simp [Run.step, completions]
  | iteration =>
    unfold Run.step captureLoopIter
    cases hq : r.session.completed_queue <;> split_ifs <;> simp [completions]

theorem foldl_signaled (M : Int) (events : List Event) (r : Run) :
    (events.foldl (Run.step M) r).signaled = r.signaled ++ completions events := by
  induction events generalizing r with
  | nil => simp [completions]
  | cons e es ih =>
    rw [List.foldl_cons, ih, step_signaled]
    cases e <;> simp [completions]

theorem step_counter (M : Int) (r : Run) (e : Event) :
    (r.step M e).session.captured_frames = r.session.captured_frames ∧
      (r.step M e).session.queued = r.session.queued := by
  cases e with
  | completion request => simp [Run.step, handleRequest]
  | iteration =>
    unfold Run.step captureLoopIter
    cases hq : r.session.completed_queue <;> split_ifs <;> simp

theorem foldl_counter (M : Int) (events : List Event) (r : Run) :
    (events.foldl (Run.step M) r).session.captured_frames = r.session.captured_frames ∧
      (events.foldl (Run.step M) r).session.queued = r.session.queued := by
  induction events generalizing r with
  | nil => exact ⟨rfl, rfl⟩
  | cons e es ih =>
    rw [List.foldl_cons]
    exact ⟨(ih _).1.trans (step_counter M r e).1, (ih _).2.trans (step_counter M r e).2⟩

theorem step_inLoop (M : Int) (r : Run) (e : Event) (h : r.inLoop = true)
    (hc : r.session.captured_frames < M) : (r.step M e).inLoop = true := by
  cases e with
  | completion request => simpa [Run.step] using h
  | iteration =>
    unfold Run.step captureLoopIter
    cases hq : r.session.completed_queue <;> simp [h, hc]

theorem foldl_inLoop (M : Int) (events : List Event) (r : Run) (h : r.inLoop = true)
    (hc : r.session.captured_frames < M) : (events.foldl (Run.step M) r).inLoop = true := by
  induction events generalizing r with
  | nil => exact h
  | cons e es ih =>
    rw [List.foldl_cons]
    exact ih _ (step_inLoop M r e h hc) (by rw [(step_counter M r e).1]; exact hc)

/-! ## The unpack loop: results -/

/-- C1, evaluated on the claim's own input: for width 8, height 1 and packed bytes
`[255,0,0,0,3,255,0,0,0,3]` the second complete group is written over the first,
at indices 0..3, and the samples of columns 4..7 stay zero: the result is
`[1023,0,0,0,0,0,0,0]`, while the formula of the claim gives `1023` at column 4. -/
theorem full_group_overwrites_first :
    unpack [255, 0, 0, 0, 3, 255, 0, 0, 0, 3] 8 1 = .ok
        { unpacked := [1023, 0, 0, 0, 0, 0, 0, 0],
          reads := [0, 1, 2, 3, 4, 5, 6, 7, 8, 9],
          writes := [(0, 1023), (1, 0), (2, 0), (3, 0), (0, 1023), (1, 0), (2, 0), (3, 0)] } ∧
      ((255 : Nat) <<< 2) ||| ((3 >>> (2 * 0)) &&& 0x3) = 1023 := by
  constructor <;> rfl

/-- C2, evaluated: the 10-bit values `1..8` of one row of width 8, packed as the
claim describes, unpack to `[5,6,7,8,0,0,0,0]` and not to `[1,...,8]`; and the
single value `1` of a row of width 1 unpacks to `0`, the low-bits byte of a
trailing group being read but not used. -/
theorem round_trip_fails :
    specPackGrid [[1, 2, 3, 4, 5, 6, 7, 8]] = [0, 0, 0, 1, 57, 1, 1, 1, 2, 57] ∧
      unpack (specPackGrid [[1, 2, 3, 4, 5, 6, 7, 8]]) 8 1 = .ok
        { unpacked := [5, 6, 7, 8, 0, 0, 0, 0],
          reads := [0, 1, 2, 3, 4, 5, 6, 7, 8, 9],
          writes := [(0, 1), (1, 2), (2, 3), (3, 4), (0, 5), (1, 6), (2, 7), (3, 8)] } ∧
      specPackGrid [[1]] = [0, 1] ∧
      unpack (specPackGrid [[1]]) 1 1 = .ok
        { unpacked := [0], reads := [0, 1], writes := [(0, 0)] } := by
  refine ⟨?_, ?_, ?_, ?_⟩ <;> rfl

/-- C3, evaluated: for width 5, height 1 and packed bytes `[1,2,3,4,0,5,0]` the
one trailing sample, `5 << 2 = 20`, is written at index 0 and not at column
`width - rem = 4`, which stays zero: the result is `[20,8,12,16,0]`. -/
theorem trailing_group_written_at_row_start :
    unpack [1, 2, 3, 4, 0, 5, 0] 5 1 = .ok
      { unpacked := [20, 8, 12, 16, 0],
        reads := [0, 1, 2, 3, 4, 5, 6],
        writes := [(0, 4), (1, 8), (2, 12), (3, 16), (0, 20)] } := by
  rfl

/-- C4, evaluated: for width 8 and height 2 the vector has `8 * 2` samples, but
the indices written are 0..3 and 8..11, twice each, and the indices 4..7 and
12..15 are never written. -/
theorem row_not_written_once :
    (unpack [1, 2, 3, 4, 0, 5, 6, 7, 8, 0, 9, 10, 11, 12, 0, 13, 14, 15, 16, 0] 8 2).map
        (fun st => (st.unpacked, st.writes.map Prod.fst)) = .ok
      ([20, 24, 28, 32, 0, 0, 0, 0, 52, 56, 60, 64, 0, 0, 0, 0],
        [0, 1, 2, 3, 0, 1, 2, 3, 8, 9, 10, 11, 8, 9, 10, 11]) := by
  rfl

/-- C6: in every sequential run, whatever the schedule of completions and loop
iterations, the requests signaled so far are the requests dequeued so far
followed by the contents of the queue, in order. So the dequeued sequence is a
prefix of the sequence passed to `handleRequest`, and equals it whenever the
queue is empty. -/
theorem completion_order (MAX_FRAMES : Int) (requests : List Request) (events : List Event) :
    (runMain MAX_FRAMES requests events).signaled = completions events ∧
      (runMain MAX_FRAMES requests events).signaled =
        (runMain MAX_FRAMES requests events).dequeued
          ++ (runMain MAX_FRAMES requests events).session.completed_queue ∧
      (runMain MAX_FRAMES requests events).dequeued <+: completions events ∧
      ((runMain MAX_FRAMES requests events).session.completed_queue = [] →
        (runMain MAX_FRAMES requests events).dequeued = completions events) := by
  have h1 : (runMain MAX_FRAMES requests events).signaled = completions events := by
    unfold runMain
    rw [foldl_signaled]
    rfl
  have h2 := foldl_queue_inv MAX_FRAMES events
    { session := startSession requests, inLoop := true, signaled := [], dequeued := [] } rfl
  refine ⟨h1, h2, ?_, ?_⟩
  · rw [← h1]
    exact ⟨_, h2.symm⟩
  · intro hq
    rw [← h1]
    unfold runMain at hq ⊢
    rw [h2, hq, List.append_nil]

/-- An instance of the ordering property: the requests 3, 1, 2 are signaled in
this order, then the loop runs three times, and 3, 1, 2 are dequeued in this
order. -/
theorem completion_order_witness :
    (runMain 100 [1, 2, 3]
        [.completion 3, .completion 1, .completion 2, .iteration, .iteration, .iteration]).dequeued
      = [3, 1, 2] :=
  (completion_order 100 [1, 2, 3]
    [.completion 3, .completion 1, .completion 2, .iteration, .iteration, .iteration]).2.2.2
    (by decide)

/-- C7, on the code: whenever `MAX_FRAMES` is positive, and for every schedule of
completions and loop iterations, control never leaves the `while` loop and
`captured_frames` is still 0: the loop body does not touch the counter. With
`MAX_FRAMES = 1` and two completions the loop dequeues both requests and goes
on. -/
theorem capture_loop_never_exits (N : Nat) (requests : List Request) (events : List Event) :
    (runMain (N + 1) requests events).inLoop = true ∧
      (runMain (N + 1) requests events).session.captured_frames = 0 ∧
      runMain 1 [7, 8] [.completion 7, .iteration, .completion 8, .iteration, .iteration] =
        { session := { captured_frames := 0, completed_queue := [], queued := [7, 8] },
          inLoop := true, signaled := [7, 8], dequeued := [7, 8] } := by
  refine ⟨?_, ?_, by decide⟩
  · exact foldl_inLoop _ events _ rfl (show (0 : Int) < (N : Int) + 1 by omega)
  · exact (foldl_counter _ events _).1

/-- C8, on the code: an iteration that dequeues a request leaves
`captured_frames` as it was and queues nothing to the camera; in every run the
counter is 0 and the requests queued are those of the start-up loop, however
many requests were dequeued. -/
theorem dequeue_keeps_counter (MAX_FRAMES c : Int) (req : Request) (rest queued : List Request)
    (requests : List Request) (events : List Event) :
    captureLoopIter MAX_FRAMES
        { captured_frames := c, completed_queue := req :: rest, queued := queued } =
      (if c < MAX_FRAMES then
        some ({ captured_frames := c, completed_queue := rest, queued := queued }, some req)
      else none) ∧
      (runMain MAX_FRAMES requests events).session.captured_frames = 0 ∧
      (runMain MAX_FRAMES requests events).session.queued = requests ∧
      runMain 100 [7] [.completion 7, .iteration] =
        { session := { captured_frames := 0, completed_queue := [], queued := [7] },
          inLoop := true, signaled := [7], dequeued := [7] } := by
  refine ⟨rfl, (foldl_counter _ events _).1, (foldl_counter _ events _).2, by decide⟩

end SimpleCapture
